import Mathlib

/-!
Shallow embedding of the RAG pipeline in `src/Openai_rag.py` and proofs
about it.  Strings from the Python code are embedded as `List Char`
(`String` for opaque message payloads); external library calls that the
source merely invokes (PDF parsing, embedding inference, the Chroma build,
the remote chat-model call) are passed in as explicit outcome parameters,
so every control-flow decision of the Python source is reflected in the
Lean definitions.
-/

/- ## Chunker: `RecursiveCharacterTextSplitter`

`qa_with_sources` (src/Openai_rag.py lines 108-112) constructs
`RecursiveCharacterTextSplitter(chunk_size=200, chunk_overlap=50,
length_function=len)`.  The splitter's algorithm (langchain
`text_splitter.py`) is embedded below with its defaults for this class:
`separators = ["\n\n", "\n", " ", ""]`, `keep_separator=True` (so merge
joins with the empty separator), `strip_whitespace=True`.  Text is
`List Char`; `length_function=len` is `List.length`. -/

/-- Python `str.strip()` whitespace test, restricted to the ASCII
whitespace characters (space, tab, CR, LF) that occur in the texts
considered here. -/
def isPySpace (c : Char) : Bool := c.isWhitespace

/-- Python `str.strip()`: drop leading and trailing whitespace. -/
def pyStrip (l : List Char) : List Char :=
  ((l.dropWhile isPySpace).reverse.dropWhile isPySpace).reverse

/-- `TextSplitter._join_docs(docs, separator)` with `separator = ""`:
join the pieces, strip whitespace, and return `none` for the empty
result (Python returns `None`, and the caller drops it). -/
def joinStrip (pieces : List (List Char)) : Option (List Char) :=
  let s := pyStrip pieces.flatten
  if s = [] then none else some s

/-- The pop-loop inside `TextSplitter._merge_splits` (separator length 0):
while `total > chunk_overlap` or (`total + len(d) > chunk_size` and
`total > 0`), drop the front piece of `current_doc` and decrease `total`
by its length. -/
def popLoop (cs ov dLen : Nat) : List (List Char) → Nat → List (List Char) × Nat
  | [], total => ([], total)
  | p :: ps, total =>
    if ov < total ∨ (cs < total + dLen ∧ 0 < total) then
      popLoop cs ov dLen ps (total - p.length)
    else (p :: ps, total)

/-- Loop body of `TextSplitter._merge_splits` (separator `""`): walk the
splits keeping a `current_doc` buffer and its running `total`; when the
next piece would overflow `chunk_size`, emit the joined buffer and pop
pieces from its front down to the overlap, then continue. -/
def mergeGo (cs ov : Nat) : List (List Char) → List (List Char) → Nat → List (List Char)
  | [], current, _ => (joinStrip current).toList
  | d :: rest, current, total =>
    if cs < total + d.length then
      if current = [] then
        mergeGo cs ov rest [d] (total + d.length)
      else
        (joinStrip current).toList ++
          (let pc := popLoop cs ov d.length current total
           mergeGo cs ov rest (pc.1 ++ [d]) (pc.2 + d.length))
    else mergeGo cs ov rest (current ++ [d]) (total + d.length)

/-- `TextSplitter._merge_splits(splits, "")`. -/
def mergeSplits (cs ov : Nat) (splits : List (List Char)) : List (List Char) :=
  mergeGo cs ov splits [] 0

/-- Fuel-indexed `re.split` on a literal separator (the separators here
are escaped literals): split `text` at each leftmost non-overlapping
occurrence of `sep`.  Fuel `text.length + 1` always suffices because each
step consumes at least one character. -/
def splitOnSepF (sep : List Char) : Nat → List Char → List (List Char)
  | 0, text => [text]
  | _ + 1, [] => [[]]
  | fuel + 1, c :: rest =>
    if sep.isPrefixOf (c :: rest) ∧ sep ≠ [] then
      [] :: splitOnSepF sep fuel ((c :: rest).drop sep.length)
    else
      match splitOnSepF sep fuel rest with
      | [] => [[c]]
      | p :: ps => (c :: p) :: ps

/-- `re.split` on a literal separator. -/
def splitOnSep (sep text : List Char) : List (List Char) :=
  splitOnSepF sep (text.length + 1) text

/-- `_split_text_with_regex(text, separator, keep_separator=True)`:
for the empty separator, `list(text)`; otherwise split on the separator
and re-attach each separator occurrence to the piece that follows it
(`splits = [_splits[0]] + [sep + piece]`), finally dropping empty
pieces. -/
def splitWithSep (sep : List Char) (text : List Char) : List (List Char) :=
  if sep = [] then
    (text.map (fun c => [c])).filter (fun s => s ≠ [])
  else
    match splitOnSep sep text with
    | [] => []
    | t0 :: ts => (t0 :: ts.map (fun t => sep ++ t)).filter (fun s => s ≠ [])

/-- Substring test (`re.search` of an escaped literal). -/
def containsSub (sep : List Char) : List Char → Bool
  | [] => sep.isEmpty
  | c :: rest => sep.isPrefixOf (c :: rest) || containsSub sep rest

/-- Separator selection at the top of `_split_text`: take the first
separator in the list that is empty or occurs in the text (falling back
to the last one), together with the remaining separators used to re-split
oversized pieces. -/
def chooseSep : List (List Char) → List Char → List Char × List (List Char)
  | [], _ => ([], [])
  | s :: rest, text =>
    if s = [] then ([], [])
    else if containsSub s text then (s, rest)
    else
      match rest with
      | [] => (s, [])
      | _ :: _ => chooseSep rest text

/-- The good-splits loop of `_split_text`: buffer pieces shorter than
`chunk_size`; on an oversized piece, flush the buffer through
`_merge_splits`, then either recurse on the piece with the remaining
separators (`recur = some f`) or append it as-is (`recur = none`,
Python's `new_separators == []` case); flush the buffer at the end. -/
def splitLoop (cs ov : Nat) (recur : Option (List Char → List (List Char))) :
    List (List Char) → List (List Char) → List (List Char)
  | good, [] => mergeSplits cs ov good
  | good, s :: rest =>
    if s.length < cs then splitLoop cs ov recur (good ++ [s]) rest
    else
      mergeSplits cs ov good ++
        (match recur with
         | none => [s]
         | some f => f s) ++
        splitLoop cs ov recur [] rest

/-- Fuel-indexed `RecursiveCharacterTextSplitter._split_text`.  The
recursion always happens on the strictly shorter remaining-separator
list, so fuel `separators.length + 1` suffices. -/
def splitTextF (cs ov : Nat) : Nat → List (List Char) → List Char → List (List Char)
  | 0, _, _ => []
  | fuel + 1, seps, text =>
    let pr := chooseSep seps text
    let splits := splitWithSep pr.1 text
    splitLoop cs ov
      (if pr.2 = [] then none else some (fun t => splitTextF cs ov fuel pr.2 t))
      [] splits

/-- The default separator list of `RecursiveCharacterTextSplitter`. -/
def defaultSeparators : List (List Char) := [['\n', '\n'], ['\n'], [' '], []]

/-- `RecursiveCharacterTextSplitter(chunk_size, chunk_overlap,
length_function=len).split_text` with the default separators. -/
def splitText (cs ov : Nat) (text : List Char) : List (List Char) :=
  splitTextF cs ov (defaultSeparators.length + 1) defaultSeparators text

/- ## Data model -/

/-- A chunk: a span of document text with its originating page number
(langchain `Document` with `page` metadata). -/
structure Chunk where
  text : String
  page : Nat
deriving DecidableEq, Repr

/-- An embedding vector.  Scores and coordinates are modelled over `Int`;
the claims proved here concern only counting and ordering, which do not
depend on the numeric carrier. -/
abbrev Vec := List Int

/-- An index entry: a chunk paired with its embedding vector. -/
abbrev Entry := Chunk × Vec

/-- The Chroma database contents: the list of index entries. -/
abbrev Db := List Entry

/-- Raw uploaded file contents (`st.file_uploader` result). -/
structure UploadedFile where
  bytes : List Nat
deriving DecidableEq, Repr

/-- An uncaught Python exception escaping a source function. -/
inductive PyErr where
  | keyError : PyErr
deriving DecidableEq, Repr

/- ## Document loader: `load_and_split_pdf` (lines 39-61)

PDF parsing (`PyPDFLoader(...).load_and_split()`) is an external library
call; its outcome is passed in as a function argument (`.ok chunks` for a
successful parse, `.error msg` when the loader raises).  The temporary
file in the upload branch is `NamedTemporaryFile(delete=False)`; whether
it still exists when the function returns is recorded in `tempLeaked`. -/

/-- Result of a `load_and_split_pdf` call that did not raise: the chunks,
the `st.error` messages displayed, and whether the `delete=False`
temporary file was left on disk. -/
structure LoadOutcome where
  chunks : List Chunk
  errors : List String
  tempLeaked : Bool
deriving DecidableEq, Repr

/-- The module-level `example_pdfs` dictionary (lines 15-18). -/
def example_pdfs : List (String × String) :=
  [("Short Stories", "/Users/riccardo/Desktop/Github/LLM_RAG/16_Kurzgeschichten.pdf"),
   ("Marketing Results", "/Users/riccardo/Desktop/Github/LLM_RAG/s12943-023-01867-y.pdf")]

/-- Python dictionary lookup: `table[key]` yields `some value` or would
raise `KeyError` (`none`). -/
def lookupIn (table : List (String × String)) (key : String) : Option String :=
  (table.find? (fun p => p.1 == key)).map (fun p => p.2)

/-- `load_and_split_pdf(uploaded_file, selected_example)` over an explicit
examples table.  `parseUpload`/`parsePath` are the `PyPDFLoader`
outcomes.  A `.error` result is an uncaught exception escaping the
function (the `example_pdfs[selected_example]` lookup at line 53 sits
outside any `try`). -/
def load_and_split_pdf_t (table : List (String × String))
    (uploaded : Option UploadedFile) (selected : String)
    (parseUpload : UploadedFile → Except String (List Chunk))
    (parsePath : String → Except String (List Chunk)) :
    Except PyErr LoadOutcome :=
  match uploaded with
  | some f =>
    -- `if uploaded_file:` branch: write bytes to a NamedTemporaryFile
    -- (delete=False), parse, and unlink only after a successful parse;
    -- the `except` branch shows the error and skips the unlink.
    (match parseUpload f with
     | .ok cs => .ok ⟨cs, [], false⟩
     | .error e =>
       .ok ⟨[], ["Error loading and splitting the PDF: " ++ e], true⟩)
  | none =>
    -- `elif selected_example and example_pdfs[selected_example]:`
    if selected ≠ "" then
      match lookupIn table selected with
      | none => .error .keyError
      | some path =>
        if path ≠ "" then
          (match parsePath path with
           | .ok cs => .ok ⟨cs, [], false⟩
           | .error e =>
             .ok ⟨[], ["Error loading and splitting the example PDF "
                        ++ path ++ ": " ++ e], false⟩)
        else .ok ⟨[], [], false⟩
    else .ok ⟨[], [], false⟩

/-- `load_and_split_pdf` over the module's `example_pdfs` table. -/
def load_and_split_pdf (uploaded : Option UploadedFile) (selected : String)
    (parseUpload : UploadedFile → Except String (List Chunk))
    (parsePath : String → Except String (List Chunk)) :
    Except PyErr LoadOutcome :=
  load_and_split_pdf_t example_pdfs uploaded selected parseUpload parsePath

/- ## Embeddings and Chroma: `initialize_embeddings`, `initialize_chroma`

Both wrap an external constructor in `try/except` and return `None` on
failure; the constructor outcome is an explicit argument. -/

/-- The HuggingFace embedding function object. -/
structure EmbeddingFn where
  model_name : String
deriving DecidableEq, Repr

/-- `initialize_embeddings()` (lines 64-70). -/
def init_embeddings (outcome : Except String EmbeddingFn) : Option EmbeddingFn :=
  match outcome with
  | .ok e => some e
  | .error _ => none

/-- `initialize_chroma(chunks, embedding_function)` (lines 73-79):
`Chroma.from_documents` outcome wrapped to `None` on failure. -/
def init_chroma (buildOutcome : Except String Db) : Option Db :=
  match buildOutcome with
  | .ok db => some db
  | .error _ => none

/- ## Retrieval: `retrieve_documents` (lines 82-89) and the search the
retriever performs

`db.as_retriever(search_kwargs={"k": 2})` builds a retriever handle over
the whole database; `retriever.invoke(query)` runs a top-k similarity
search whose result the source discards; the handle itself is returned
(`None` if anything raised). -/

/-- The retriever handle returned by `as_retriever`: the database plus
the configured `k`. -/
structure Retriever where
  db : Db
  k : Nat
deriving DecidableEq, Repr

/-- `retrieve_documents(db, query)`: build the k=2 retriever, invoke it
(result discarded), and return the handle; `None` when the invoke
raises. -/
def retrieve_documents (db : Db) (_query : String) (invokeFails : Bool) :
    Option Retriever :=
  if invokeFails then none else some ⟨db, 2⟩

/-- Modelled from the spec: the similarity search behind
`retriever.invoke` (library code, not in src/) — score every entry
against the query vector, rank descending by score with ties in
insertion order, and keep the first `k`.  `insertByScore` is the stable
descending insertion. -/
def insertByScore {α : Type} (x : α × Int) : List (α × Int) → List (α × Int)
  | [] => [x]
  | y :: ys => if x.2 < y.2 then y :: insertByScore x ys else x :: y :: ys

/-- Stable descending sort by score. -/
def rankDesc {α : Type} (l : List (α × Int)) : List (α × Int) :=
  l.foldr insertByScore []

/-- Modelled from the spec: `Index.search` — the ranked top-`k`
(entry, score) list for a query vector. -/
def searchK (sim : Vec → Vec → Int) (entries : List Entry) (q : Vec) (k : Nat) :
    List (Entry × Int) :=
  (rankDesc (entries.map (fun e => (e, sim e.2 q)))).take k

/- ## LLM initialisation: `initialize_llm_model` (lines 92-103) -/

/-- The `ChatOpenAI` client object constructed by `initialize_llm_model`:
the credential is stored, never inspected. -/
structure ChatOpenAIModel where
  openai_api_key : String
  model_name : String
  temperature : Nat
  max_tokens : Nat
deriving DecidableEq, Repr

/-- Modelled from the spec: the `ChatOpenAI` constructor (library code,
not in src/) performs no local credential validation — it only stores the
parameters, so construction succeeds for every credential string and
failure can only surface at the remote call. -/
def chatOpenAIConstruct (key : String) : Except String ChatOpenAIModel :=
  .ok ⟨key, "gpt-3.5-turbo", 0, 300⟩

/-- `initialize_llm_model()`: construct the client inside `try/except`,
returning `None` if the constructor raises. -/
def init_llm_model (key : String) : Option ChatOpenAIModel :=
  match chatOpenAIConstruct key with
  | .ok llm => some llm
  | .error _ => none

/- ## Answer synthesis: `qa_with_sources` (lines 106-123) -/

/-- The dictionary `qa_with_sources` returns: the answer text and the
source citations (`[]` when the returned dictionary carries no
`"sources"` key, as on every error path). -/
structure QAResult where
  answer : String
  sources : List String
deriving DecidableEq, Repr

/-- `qa_with_sources(llm_instance, chunks, embedding_instance, query)`.
`buildOutcome` is the `Chroma.from_documents` result, `retrInvokeFails`
the `retriever.invoke` outcome, and `chainOutcome` the
`RetrievalQAWithSourcesChain...invoke(query)` outcome (`.error` covers
auth failure, rate limiting, network failure, malformed response).  The
`RecursiveCharacterTextSplitter(chunk_size=200, chunk_overlap=50)`
instance built at lines 108-112 is never used afterwards; it is kept
here as the dead binding `_text_splitter_instance`. -/
def qa_with_sources (buildOutcome : Except String Db) (retrInvokeFails : Bool)
    (chainOutcome : Except String (String × List String)) : QAResult :=
  let _text_splitter_instance := (200, 50)
  match init_chroma buildOutcome with
  | none => ⟨"Error initializing Chroma database.", []⟩
  | some db =>
    match retrieve_documents db "" retrInvokeFails with
    | none => ⟨"Error retrieving documents.", []⟩
    | some _retriever_instance =>
      match chainOutcome with
      | .ok (ans, srcs) => ⟨ans, srcs⟩
      | .error e => ⟨"Error processing request: " ++ e, []⟩

/- ## Per-question chat handler (lines 156-168, repeated per document-set
branch at 193-205 and 234-246) -/

/-- The external-call outcomes one chat turn depends on. -/
structure Oracles where
  parseUpload : UploadedFile → Except String (List Chunk)
  parsePath : String → Except String (List Chunk)
  embed : Except String EmbeddingFn
  chromaBuild : Except String Db
  retrInvokeFails : Bool
  chain : Except String (String × List String)

/-- What one chat turn produced: the text written to the chat and the
number of `Chroma.from_documents` index-construction calls it made. -/
structure TurnResult where
  answer : String
  chromaBuilds : Nat
deriving DecidableEq, Repr

/-- One chat turn of the main handler: initialise the LLM client, reload
and re-split the PDFs, re-initialise embeddings, and run
`qa_with_sources` (which rebuilds the Chroma index).  A `.error` result
is an uncaught exception escaping the handler. -/
def chatTurn (key : String) (selected : String) (uploaded : Option UploadedFile)
    (o : Oracles) (_prompt : String) : Except PyErr TurnResult :=
  match init_llm_model key with
  | none => .ok ⟨"Error initializing the LLM model.", 0⟩
  | some _llm =>
    match load_and_split_pdf uploaded selected o.parseUpload o.parsePath with
    | .error pe => .error pe
    | .ok _lr =>
      match init_embeddings o.embed with
      | none => .ok ⟨"Error initializing embeddings.", 0⟩
      | some _emb =>
        let ans := qa_with_sources o.chromaBuild o.retrInvokeFails o.chain
        .ok ⟨ans.answer, 1⟩

/-- Number of Chroma index constructions over a whole session: one
document-set selection, a list of question prompts. -/
def sessionChromaBuilds (key : String) (selected : String)
    (uploaded : Option UploadedFile) (o : Oracles) (prompts : List String) : Nat :=
  (prompts.map (fun p =>
    match chatTurn key selected uploaded o p with
    | .ok t => t.chromaBuilds
    | .error _ => 0)).sum

/- ## Statement of the C1 claim over the embedded splitter -/

/-- The last `n` characters of a chunk. -/
def suffixTake (n : Nat) (l : List Char) : List Char := l.drop (l.length - n)

/-- The C1 claim as stated: every chunk of the split is at most
`cs` long, and every consecutive pair of chunks other than the pair
ending at the final chunk shares exactly `ov` characters (the last `ov`
characters of the earlier chunk are the first `ov` of the later one). -/
@[reducible] def c1ClaimProperty (cs ov : Nat) (t : List Char) : Prop :=
  (∀ c ∈ splitText cs ov t, c.length ≤ cs) ∧
  (∀ p ∈ ((splitText cs ov t).zip (splitText cs ov t).tail).dropLast,
    suffixTake ov p.1 = p.2.take ov)

/-- The page text refuting the exact-overlap part of C1: three 180-character
words separated by single spaces. -/
def c1BadText : List Char :=
  List.replicate 180 'a' ++ ' ' :: List.replicate 180 'b' ++ ' ' :: List.replicate 180 'c'

/-- Total character count of a list of text pieces (the `total` counter
of `_merge_splits`). -/
def sumLen (l : List (List Char)) : Nat := (l.map List.length).sum

/-- A separator list whose last element is the empty separator (or which
is empty), as every suffix of `defaultSeparators` reached by the
recursion is. -/
def endsNil : List (List Char) → Bool
  | [] => true
  | [s] => s.isEmpty
  | _ :: s :: rest => endsNil (s :: rest)

/- ## Lemmas: every chunk respects the chunk-size bound -/

theorem pyStrip_length_le (l : List Char) : (pyStrip l).length ≤ l.length := by
  unfold pyStrip
  rw [List.length_reverse]
  calc ((l.dropWhile isPySpace).reverse.dropWhile isPySpace).length
      ≤ (l.dropWhile isPySpace).reverse.length :=
        (List.dropWhile_sublist _).length_le
    _ = (l.dropWhile isPySpace).length := List.length_reverse _
    _ ≤ l.length := (List.dropWhile_sublist _).length_le

theorem joinStrip_length_le (cur : List (List Char)) (c : List Char)
    (h : joinStrip cur = some c) : c.length ≤ sumLen cur := by
  by_cases he : pyStrip cur.flatten = []
  · simp [joinStrip, he] at h
  · simp [joinStrip, he] at h
    calc c.length = (pyStrip cur.flatten).length := by rw [h]
      _ ≤ cur.flatten.length := pyStrip_length_le _
      _ = sumLen cur := by rw [List.length_flatten]; rfl

theorem popLoop_spec (cs ov dLen : Nat) (hd : dLen < cs) :
    ∀ (cur : List (List Char)) (total : Nat), total = sumLen cur →
      (popLoop cs ov dLen cur total).2 = sumLen (popLoop cs ov dLen cur total).1 ∧
      (popLoop cs ov dLen cur total).2 + dLen ≤ cs := by
  intro cur
  induction cur with
  | nil =>
    intro total ht
    simp only [sumLen, List.map_nil, List.sum_nil] at ht
    simp only [popLoop, ht]
    constructor
    · rfl
    · omega
  | cons p ps ih =>
    intro total ht
    rw [popLoop]
    by_cases hc : ov < total ∨ (cs < total + dLen ∧ 0 < total)
    · rw [if_pos hc]
      apply ih
      simp only [sumLen, List.map_cons, List.sum_cons] at ht ⊢
      omega
    · rw [if_neg hc]
      push_neg at hc
      exact ⟨ht, by omega⟩

theorem mergeGo_length_le (cs ov : Nat) :
    ∀ (splits cur : List (List Char)) (total : Nat),
      (∀ s ∈ splits, s.length < cs) → total = sumLen cur → total ≤ cs →
      ∀ c ∈ mergeGo cs ov splits cur total, c.length ≤ cs := by
  intro splits
  induction splits with
  | nil =>
    intro cur total _ ht hle c hc
    simp only [mergeGo, Option.mem_toList, Option.mem_def] at hc
    have := joinStrip_length_le cur c hc
    omega
  | cons d rest ih =>
    intro cur total hs ht hle c hc
    have hdlt : d.length < cs := hs d (by simp)
    rw [mergeGo] at hc
    by_cases h1 : cs < total + d.length
    · rw [if_pos h1] at hc
      by_cases h2 : cur = []
      · exfalso
        subst h2
        simp only [sumLen, List.map_nil, List.sum_nil] at ht
        omega
      · rw [if_neg h2] at hc
        rcases List.mem_append.mp hc with hml | hmr
        · simp only [Option.mem_toList, Option.mem_def] at hml
          have := joinStrip_length_le cur c hml
          omega
        · obtain ⟨hp1, hp2⟩ := popLoop_spec cs ov d.length hdlt cur total ht
          refine ih _ _ (fun s hs' => hs s (List.mem_cons_of_mem _ hs')) ?_ ?_ c hmr
          · simp only [sumLen, List.map_append, List.sum_append, List.map_cons,
              List.sum_cons, List.map_nil, List.sum_nil]
            simp only [sumLen] at hp1
            omega
          · omega
    · rw [if_neg h1] at hc
      refine ih _ _ (fun s hs' => hs s (List.mem_cons_of_mem _ hs')) ?_ ?_ c hc
      · simp only [sumLen, List.map_append, List.sum_append, List.map_cons,
          List.sum_cons, List.map_nil, List.sum_nil]
        simp only [sumLen] at ht
        omega
      · omega

theorem splitLoop_length_le (cs ov : Nat)
    (recur : Option (List Char → List (List Char)))
    (hrec : ∀ f, recur = some f → ∀ s c, c ∈ f s → c.length ≤ cs) :
    ∀ (splits good : List (List Char)),
      (∀ s ∈ good, s.length < cs) →
      (recur = none → ∀ s ∈ splits, s.length < cs) →
      ∀ c ∈ splitLoop cs ov recur good splits, c.length ≤ cs := by
  intro splits
  induction splits with
  | nil =>
    intro good hg _ c hc
    simp only [splitLoop] at hc
    exact mergeGo_length_le cs ov good [] 0 hg rfl (Nat.zero_le _) c hc
  | cons s rest ih =>
    intro good hg hnone c hc
    simp only [splitLoop] at hc
    by_cases hlen : s.length < cs
    · rw [if_pos hlen] at hc
      refine ih (good ++ [s]) ?_ ?_ c hc
      · intro x hx
        rcases List.mem_append.mp hx with h | h
        · exact hg x h
        · simp at h; subst h; exact hlen
      · intro h x hx
        exact hnone h x (List.mem_cons_of_mem _ hx)
    · rw [if_neg hlen] at hc
      rcases List.mem_append.mp hc with hml | hmr
      · rcases List.mem_append.mp hml with hm1 | hm2
        · exact mergeGo_length_le cs ov good [] 0 hg rfl (Nat.zero_le _) c hm1
        · cases hre : recur with
          | none =>
            exfalso
            rw [hre] at hm2
            simp only at hm2
            have := hnone hre s (by simp)
            exact hlen this
          | some f =>
            rw [hre] at hm2
            simp only at hm2
            exact hrec f hre s c hm2
      · refine ih [] (by simp) ?_ c hmr
        intro h x hx
        exact hnone h x (List.mem_cons_of_mem _ hx)

theorem chooseSep_endsNil :
    ∀ (seps : List (List Char)) (text : List Char), endsNil seps = true →
      endsNil (chooseSep seps text).2 = true ∧
      ((chooseSep seps text).2 = [] → (chooseSep seps text).1 = []) := by
  intro seps
  induction seps with
  | nil =>
    intro text _
    simp [chooseSep, endsNil]
  | cons s rest ih =>
    intro text h
    simp only [chooseSep]
    by_cases hs : s = []
    · rw [if_pos hs]
      simp [endsNil]
    · rw [if_neg hs]
      by_cases hc : containsSub s text = true
      · rw [if_pos hc]
        cases rest with
        | nil =>
          exfalso
          simp only [endsNil, List.isEmpty_iff] at h
          exact hs h
        | cons r rs =>
          constructor
          · simpa [endsNil] using h
          · intro hh
            exact absurd hh (by simp)
      · rw [if_neg hc]
        cases rest with
        | nil =>
          exfalso
          simp only [endsNil, List.isEmpty_iff] at h
          exact hs h
        | cons r rs =>
          exact ih text (by simpa [endsNil] using h)

theorem splitWithSep_nil_length (text : List Char) :
    ∀ s ∈ splitWithSep [] text, s.length = 1 := by
  intro s hs
  have hrw : splitWithSep [] text
      = (text.map (fun c => [c])).filter (fun s => s ≠ []) := by
    simp [splitWithSep]
  rw [hrw, List.mem_filter] at hs
  obtain ⟨hm, _⟩ := hs
  rw [List.mem_map] at hm
  obtain ⟨a, _, rfl⟩ := hm
  rfl

theorem splitTextF_length_le (cs ov : Nat) (hcs : 2 ≤ cs) :
    ∀ (fuel : Nat) (seps : List (List Char)) (text : List Char),
      endsNil seps = true →
      ∀ c ∈ splitTextF cs ov fuel seps text, c.length ≤ cs := by
  intro fuel
  induction fuel with
  | zero =>
    intro seps text _ c hc
    simp [splitTextF] at hc
  | succ fuel ih =>
    intro seps text hends c hc
    rw [splitTextF] at hc
    obtain ⟨h1, h2⟩ := chooseSep_endsNil seps text hends
    by_cases hn : (chooseSep seps text).2 = []
    · rw [if_pos hn] at hc
      refine splitLoop_length_le cs ov none (by intro f hf; cases hf) _ []
        (by simp) ?_ c hc
      intro _ s hsmem
      have hsep : (chooseSep seps text).1 = [] := h2 hn
      rw [hsep] at hsmem
      have := splitWithSep_nil_length text s hsmem
      omega
    · rw [if_neg hn] at hc
      refine splitLoop_length_le cs ov _ ?_ _ [] (by simp) (by intro h; cases h) c hc
      intro f hf s c' hc'
      have hfe : f = fun t => splitTextF cs ov fuel (chooseSep seps text).2 t :=
        (Option.some_inj.mp hf).symm
      rw [hfe] at hc'
      exact ih (chooseSep seps text).2 s h1 c' hc'

/- ## Lemmas: the modelled top-k search ranks and counts correctly -/

theorem insertByScore_perm {α : Type} (x : α × Int) (l : List (α × Int)) :
    (insertByScore x l).Perm (x :: l) := by
  induction l with
  | nil => exact List.Perm.refl _
  | cons y ys ih =>
    rw [insertByScore]
    by_cases h : x.2 < y.2
    · rw [if_pos h]
      exact (ih.cons y).trans (List.Perm.swap x y ys)
    · rw [if_neg h]

theorem rankDesc_perm {α : Type} (l : List (α × Int)) : (rankDesc l).Perm l := by
  induction l with
  | nil => exact List.Perm.refl _
  | cons y ys ih =>
    have hrw : rankDesc (y :: ys) = insertByScore y (rankDesc ys) := rfl
    rw [hrw]
    exact (insertByScore_perm y _).trans (ih.cons y)

theorem insertByScore_sorted {α : Type} (x : α × Int) (l : List (α × Int))
    (h : List.Sorted (fun a b : α × Int => b.2 ≤ a.2) l) :
    List.Sorted (fun a b : α × Int => b.2 ≤ a.2) (insertByScore x l) := by
  induction l with
  | nil => simp [insertByScore]
  | cons y ys ih =>
    rw [List.sorted_cons] at h
    obtain ⟨hy, hys⟩ := h
    rw [insertByScore]
    by_cases hcmp : x.2 < y.2
    · rw [if_pos hcmp]
      rw [List.sorted_cons]
      refine ⟨?_, ih hys⟩
      intro b hb
      have hb' : b ∈ x :: ys := (insertByScore_perm x ys).subset hb
      rcases List.mem_cons.mp hb' with rfl | hbys
      · exact le_of_lt hcmp
      · exact hy b hbys
    · rw [if_neg hcmp]
      rw [List.sorted_cons]
      refine ⟨?_, List.sorted_cons.mpr ⟨hy, hys⟩⟩
      intro b hb
      rcases List.mem_cons.mp hb with rfl | hbys
      · exact le_of_not_lt hcmp
      · exact le_trans (hy b hbys) (le_of_not_lt hcmp)

theorem rankDesc_sorted {α : Type} (l : List (α × Int)) :
    List.Sorted (fun a b : α × Int => b.2 ≤ a.2) (rankDesc l) := by
  induction l with
  | nil => simp [rankDesc]
  | cons y ys ih => exact insertByScore_sorted y _ ih

/- ## Claim theorems -/

set_option maxRecDepth 100000

/-- C1 as stated is false: on the page text `c1BadText` (three
180-character words separated by single spaces) the 200/50 splitter
produces three chunks of 180 characters each, and the first two
consecutive chunks — neither of them final — share no characters at all,
not exactly 50. -/
theorem c1_counterexample : ¬ c1ClaimProperty 200 50 c1BadText := by decide

/-- C1 (amended): every chunk produced by the
`RecursiveCharacterTextSplitter(chunk_size=200, chunk_overlap=50)` step
has length at most 200, for every page text; consecutive chunks carry
over at most — not exactly — `overlap` characters, and may share none. -/
theorem c1_chunk_length_le (t c : List Char) (hc : c ∈ splitText 200 50 t) :
    c.length ≤ 200 :=
  splitTextF_length_le 200 50 (by omega) _ defaultSeparators t (by decide) c hc

/-- Witness for `c1_chunk_length_le` at the concrete page text "abc". -/
theorem c1_chunk_length_le_witness :
    (['a', 'b', 'c'] : List Char) ∈ splitText 200 50 ['a', 'b', 'c'] ∧
    (['a', 'b', 'c'] : List Char).length ≤ 200 :=
  ⟨by decide, c1_chunk_length_le ['a', 'b', 'c'] ['a', 'b', 'c'] (by decide)⟩

/-- C2: the claim that the temporary file is deleted on every exit path
is violated by the code — when the uploaded bytes fail to parse, the
`except` branch at lines 49-50 skips the `os.unlink` at line 48, and the
`NamedTemporaryFile(delete=False)` is left on disk (`tempLeaked = true`). -/
theorem c2_temp_leaked_on_parse_failure (f : UploadedFile) (sel e : String)
    (parsePath : String → Except String (List Chunk)) :
    load_and_split_pdf (some f) sel (fun _ => .error e) parsePath
      = .ok ⟨[], ["Error loading and splitting the PDF: " ++ e], true⟩ := rfl

/-- C3 as stated is false: on an index of three entries the value
`retrieve_documents` returns is the retriever handle carrying all three
index entries (the `retriever.invoke(query)` result is discarded at
line 85), not an ordered sequence of at most k = 2 scored pairs. -/
theorem c3_counterexample :
    ((retrieve_documents
        [(⟨"c1", 1⟩, [1]), (⟨"c2", 2⟩, [2]), (⟨"c3", 3⟩, [3])] "q" false).map
      (fun r => r.db.length)) = some 3 ∧ ¬ (3 ≤ 2) :=
  ⟨rfl, by omega⟩

/-- C3 (amended): `retrieve_documents` returns the k = 2 retriever handle
over the whole index (discarding the invoke result), or `none` on
failure; the top-k search the retriever performs returns exactly
`min k |index|` entries ranked descending by score, and when the index
holds fewer than `k` entries it returns all of them. -/
theorem c3_retrieval_topk (sim : Vec → Vec → Int) (db : Db) (q : String) (qv : Vec) :
    retrieve_documents db q false = some ⟨db, 2⟩ ∧
    (searchK sim db qv 2).length = min 2 db.length ∧
    List.Sorted (fun a b : Entry × Int => b.2 ≤ a.2) (searchK sim db qv 2) ∧
    (db.length < 2 → ((searchK sim db qv 2).map Prod.fst).Perm db) := by
  refine ⟨rfl, ?_, ?_, ?_⟩
  · unfold searchK
    rw [List.length_take, (rankDesc_perm _).length_eq, List.length_map]
  · unfold searchK
    exact List.Pairwise.sublist (List.take_sublist _ _) (rankDesc_sorted _)
  · intro hlt
    unfold searchK
    rw [List.take_of_length_le
      (by rw [(rankDesc_perm _).length_eq, List.length_map]; omega)]
    have hp := (rankDesc_perm (db.map (fun e => (e, sim e.2 qv)))).map Prod.fst
    have hmap : (db.map (fun e => (e, sim e.2 qv))).map Prod.fst = db := by
      rw [List.map_map]
      have hfe : (Prod.fst ∘ fun e : Entry => (e, sim e.2 qv)) = fun e => e := rfl
      rw [hfe]
      simp
    rw [hmap] at hp
    exact hp

/-- Witness for `c3_retrieval_topk` on a one-entry index. -/
theorem c3_retrieval_topk_witness :
    retrieve_documents [(⟨"only", 0⟩, [5])] "q" false
      = some ⟨[(⟨"only", 0⟩, [5])], 2⟩ ∧
    (searchK (fun _ _ => 0) [(⟨"only", 0⟩, [5])] [5] 2).length
      = min 2 ([(⟨"only", 0⟩, [5])] : Db).length ∧
    List.Sorted (fun a b : Entry × Int => b.2 ≤ a.2)
      (searchK (fun _ _ => 0) [(⟨"only", 0⟩, [5])] [5] 2) ∧
    (([(⟨"only", 0⟩, [5])] : Db).length < 2 →
      ((searchK (fun _ _ => 0) [(⟨"only", 0⟩, [5])] [5] 2).map Prod.fst).Perm
        [(⟨"only", 0⟩, [5])]) :=
  c3_retrieval_topk (fun _ _ => 0) [(⟨"only", 0⟩, [5])] "q" [5]

/-- C4: whenever the chain call fails (`.error e` — auth failure, rate
limit, network failure, malformed response, including an invalid API
credential), `qa_with_sources` returns the degraded dictionary
`{"answer": "Error processing request: " ++ e}` — empty citations and a
non-empty error message — and, being total, never lets the exception
escape. -/
theorem c4_degraded_answer (db : Db) (e : String) :
    qa_with_sources (.ok db) false (.error e)
      = ⟨"Error processing request: " ++ e, []⟩ ∧
    (qa_with_sources (.ok db) false (.error e)).sources = [] ∧
    (qa_with_sources (.ok db) false (.error e)).answer ≠ "" := by
  refine ⟨rfl, rfl, ?_⟩
  intro hcontra
  have hans : (qa_with_sources (.ok db) false (.error e)).answer
      = "Error processing request: " ++ e := rfl
  rw [hans] at hcontra
  have hlen := congrArg String.length hcontra
  rw [String.length_append] at hlen
  have h26 : ("Error processing request: " : String).length = 26 := rfl
  have h0 : ("" : String).length = 0 := rfl
  omega

/-- C5: the claim that the index is built once per document-set
selection and reused across queries is violated by the code — with one
document-set selection ("Short Stories") and two questions, the handler
runs `Chroma.from_documents` twice, once inside `qa_with_sources` on
every question. -/
theorem c5_index_rebuilt_every_turn :
    sessionChromaBuilds "sk-x" "Short Stories" none
      ⟨fun _ => .ok [], fun _ => .ok [⟨"t", 0⟩], .ok ⟨"all-MiniLM-L6-v2"⟩,
       .ok [(⟨"t", 0⟩, [1])], false, .ok ("ans", ["src"])⟩
      ["q1", "q2"] = 2 := rfl

/-- C6: when the PDF source fails to parse — uploaded bytes or a named
example — `load_and_split_pdf` returns normally with an empty chunk list
and a visible `st.error` message; the session does not crash. -/
theorem c6_load_failure_nonfatal (f : UploadedFile) (sel e path : String)
    (pu : UploadedFile → Except String (List Chunk))
    (pp : String → Except String (List Chunk))
    (hpu : pu f = .error e) (hlook : lookupIn example_pdfs sel = some path)
    (hpath : path ≠ "") (hpp : pp path = .error e) :
    load_and_split_pdf (some f) sel pu pp
      = .ok ⟨[], ["Error loading and splitting the PDF: " ++ e], true⟩ ∧
    load_and_split_pdf none sel pu pp
      = .ok ⟨[], ["Error loading and splitting the example PDF "
                   ++ path ++ ": " ++ e], false⟩ := by
  constructor
  · simp [load_and_split_pdf, load_and_split_pdf_t, hpu]
  · have hsel : sel ≠ "" := by
      intro h
      rw [h] at hlook
      simp [lookupIn, example_pdfs] at hlook
    simp [load_and_split_pdf, load_and_split_pdf_t, hsel, hlook, hpath, hpp]

/-- Witness for `c6_load_failure_nonfatal` on the "Short Stories"
example with a parse error. -/
theorem c6_load_failure_nonfatal_witness :
    load_and_split_pdf (some ⟨[0]⟩) "Short Stories"
        (fun _ => .error "bad pdf") (fun _ => .error "bad pdf")
      = .ok ⟨[], ["Error loading and splitting the PDF: " ++ "bad pdf"], true⟩ ∧
    load_and_split_pdf none "Short Stories"
        (fun _ => .error "bad pdf") (fun _ => .error "bad pdf")
      = .ok ⟨[], ["Error loading and splitting the example PDF "
                   ++ "/Users/riccardo/Desktop/Github/LLM_RAG/16_Kurzgeschichten.pdf"
                   ++ ": " ++ "bad pdf"], false⟩ :=
  c6_load_failure_nonfatal ⟨[0]⟩ "Short Stories" "bad pdf"
    "/Users/riccardo/Desktop/Github/LLM_RAG/16_Kurzgeschichten.pdf"
    (fun _ => .error "bad pdf") (fun _ => .error "bad pdf")
    rfl (by decide) (by decide) rfl

/-- C7: chunking is deterministic — two runs of the splitter on equal
page texts with equal parameters produce equal chunk sequences. -/
theorem c7_chunking_deterministic (cs ov : Nat) (t₁ t₂ : List Char)
    (h : t₁ = t₂) : splitText cs ov t₁ = splitText cs ov t₂ := by rw [h]

/-- Witness for `c7_chunking_deterministic` at the 200/50 parameters of
`qa_with_sources` on a concrete page text. -/
theorem c7_chunking_deterministic_witness :
    splitText 200 50 ['a', 'b', ' ', 'c'] = splitText 200 50 ['a', 'b', ' ', 'c'] :=
  c7_chunking_deterministic 200 50 _ _ rfl

/-- C8: `initialize_llm_model` succeeds for every credential string —
the constructor merely stores the key (no local validation), so the
`except` branch returning `None` is unreachable. -/
theorem c8_llm_init_never_fails (key : String) :
    init_llm_model key = some ⟨key, "gpt-3.5-turbo", 0, 300⟩ ∧
    init_llm_model key ≠ none := by
  refine ⟨rfl, ?_⟩
  intro h
  simp [init_llm_model, chatOpenAIConstruct] at h

/-- C9: with no uploaded file and a non-empty selection that is not a
key of `example_pdfs` — such as "Upload your own data", passed when the
user asks a question before uploading — the dictionary lookup at line 53
raises an uncaught `KeyError` instead of returning an empty chunk
sequence. -/
theorem c9_keyerror_on_unknown_selection (sel : String)
    (pu : UploadedFile → Except String (List Chunk))
    (pp : String → Except String (List Chunk))
    (hsel : sel ≠ "") (hlook : lookupIn example_pdfs sel = none) :
    load_and_split_pdf none sel pu pp = .error .keyError := by
  simp [load_and_split_pdf, load_and_split_pdf_t, hsel, hlook]

/-- Witness for `c9_keyerror_on_unknown_selection` at the selection
value "Upload your own data". -/
theorem c9_keyerror_on_unknown_selection_witness :
    load_and_split_pdf none "Upload your own data"
      (fun _ => .ok []) (fun _ => .ok []) = .error .keyError :=
  c9_keyerror_on_unknown_selection "Upload your own data"
    (fun _ => .ok []) (fun _ => .ok []) (by decide) (by decide)

/-- C10: when an uploaded file is present, its bytes take precedence:
the result of `load_and_split_pdf` is computed from the uploaded parse
alone — it is independent of the selected example, of the
`example_pdfs` table, and of the example-path parser, and equals the
upload-branch outcome. -/
theorem c10_upload_precedence (f : UploadedFile) (sel₁ sel₂ : String)
    (tab₁ tab₂ : List (String × String))
    (pu : UploadedFile → Except String (List Chunk))
    (pp₁ pp₂ : String → Except String (List Chunk)) :
    load_and_split_pdf_t tab₁ (some f) sel₁ pu pp₁
      = load_and_split_pdf_t tab₂ (some f) sel₂ pu pp₂ ∧
    load_and_split_pdf_t tab₁ (some f) sel₁ pu pp₁
      = (match pu f with
         | .ok cs => .ok ⟨cs, [], false⟩
         | .error e =>
           .ok ⟨[], ["Error loading and splitting the PDF: " ++ e], true⟩) :=
  ⟨rfl, rfl⟩
